import Mathlib

/-!
Shallow embedding of the chat relay in `server.py` (and the decode loop of
`client.py`).  Python `str` values are modelled as `List Char` (a Python string
is a sequence of code points), the module-global `clients` dict as an
insertion-ordered association list `List (Nat × List Char)` keyed by socket
identity, and the observable I/O of the server as a list of `Effect`s
(`send`/`close`).  Send failures (`OSError` from `sendall`) are modelled by a
static predicate `fails : Nat → Bool` saying which sockets fail when written to.
-/

namespace Chat

/-- A Python `str`: a sequence of code points. -/
abbrev PyStr := List Char

/-- The module-global `clients` dict of `server.py`: socket → nickname, in
insertion order (Python dicts preserve insertion order). -/
abbrev Registry := List (Nat × PyStr)

/-- Coerce a Lean string literal to the `PyStr` model. -/
def str (s : String) : PyStr := s.data

/-- Observable side effects of the server: `sendall` of a text line to a
socket, and closing a socket. -/
inductive Effect where
  | send (conn : Nat) (msg : PyStr)
  | close (conn : Nat)
deriving DecidableEq, Repr

/-! ### Python dict operations on the association-list model -/

/-- Model of `clients.get(k)` / `clients[k]` lookup. -/
def dictGet (k : Nat) : Registry → Option PyStr
  | [] => none
  | (k', v) :: rest => if k' = k then some v else dictGet k rest

/-- Model of `clients[k] = v`: update in place if the key exists, else append. -/
def dictSet (k : Nat) (v : PyStr) : Registry → Registry
  | [] => [(k, v)]
  | (k', v') :: rest =>
      if k' = k then (k, v) :: rest else (k', v') :: dictSet k v rest

/-- Model of `clients.pop(k, None)`: return the prior value (or `none`) and the dict
without that entry. -/
def dictPop (k : Nat) : Registry → Option PyStr × Registry
  | [] => (none, [])
  | (k', v) :: rest =>
      if k' = k then (some v, rest)
      else
        let p := dictPop k rest
        (p.1, (k', v) :: p.2)

/-- The linear scan of `send_whisper`: first connection whose nickname equals
`target` in iteration (= insertion) order. -/
def findByNickname (target : PyStr) : Registry → Option Nat
  | [] => none
  | (s, name) :: rest => if name = target then some s else findByNickname target rest

/-! ### Python string helpers -/

/-- ASCII fragment of Python's default `str.strip` whitespace set. -/
def pySpace (c : Char) : Bool :=
  c = ' ' || c = '\t' || c = '\n' || c = '\x0d' || c = '\x0b' || c = '\x0c'

/-- Python `s.strip()` (restricted to the ASCII whitespace set above). -/
def pyStrip (s : PyStr) : PyStr :=
  ((s.dropWhile pySpace).reverse.dropWhile pySpace).reverse

/-- Python `s.startswith(pat)`. -/
def pyStartsWith : PyStr → PyStr → Bool
  | [], _ => true
  | _ :: _, [] => false
  | p :: ps, c :: cs => p = c && pyStartsWith ps cs

/-- Split off everything before the first occurrence of `sep`, or `none` when
`sep` does not occur. -/
def splitFirstChar (sep : Char) : PyStr → Option (PyStr × PyStr)
  | [] => none
  | c :: cs =>
      if c = sep then some ([], cs)
      else
        match splitFirstChar sep cs with
        | none => none
        | some p => some (c :: p.1, p.2)

/-- Python `s.split(sep, maxsplit)` with a single-character separator:
at most `maxsplit` splits, empty fields kept. -/
def pySplit (sep : Char) : Nat → PyStr → List PyStr
  | 0, s => [s]
  | m + 1, s =>
      match splitFirstChar sep s with
      | none => [s]
      | some p => p.1 :: pySplit sep m p.2

/-! ### Message texts of `server.py` (each `Effect.send` carries exactly the
string handed to `sendall`, newline included) -/

def nl : PyStr := ['\n']

/-- Model of `'[SYSTEM] [" + name + "] 님이 퇴장하셨습니다.'` (line 32). -/
def departMsg (name : PyStr) : PyStr :=
  str "[SYSTEM] [" ++ name ++ str "] 님이 퇴장하셨습니다."

/-- Model of `'[SYSTEM] [" + name + "] 님이 입장하셨습니다.'` (line 48). -/
def joinMsg (name : PyStr) : PyStr :=
  str "[SYSTEM] [" ++ name ++ str "] 님이 입장하셨습니다."

/-- Refusal for an empty nickname (line 38), newline included in the source
literal. -/
def refusalMsg : PyStr := str "[SYSTEM] 닉네임이 비었습니다.\n"

/-- Welcome/help line (line 47). -/
def welcomeMsg : PyStr := str "[SYSTEM] 연결됨. \"/종료\" 종료, \"/w 닉 메시지\" 귓속말.\n"

/-- Whisper usage error (line 64). -/
def usageMsg : PyStr := str "[SYSTEM] 사용법: /w 닉네임 메시지\n"

/-- Whisper target-not-found message (line 84). -/
def notFoundMsg (target : PyStr) : PyStr :=
  str "[SYSTEM] 대상 [" ++ target ++ str "] 없음.\n"

/-- Model of `'(귓속말) {sender}> {content}'` (line 87). -/
def whisperMsg (sender content : PyStr) : PyStr :=
  str "(귓속말) " ++ sender ++ str "> " ++ content

/-- Model of `'(귓속말 보냄) {target}에게> {content}'` (line 88). -/
def whisperSentMsg (target content : PyStr) : PyStr :=
  str "(귓속말 보냄) " ++ target ++ str "에게> " ++ content

/-- Model of `'{nickname}> {text}'` (line 71). -/
def chatMsg (nickname text : PyStr) : PyStr := nickname ++ str "> " ++ text

/-! ### `broadcast` / `remove_client`

`broadcast` snapshots the target list under the lock (`s is not exclude`),
then sends to each target; an `OSError` on a send triggers `remove_client`,
which pops the socket, closes it, and — when a nickname was registered —
broadcasts a departure announcement, recursively.  The mutual recursion is
expressed as one structurally recursive job runner with a fuel bound on the
recursion depth (the wrappers below supply ample fuel: the cascade depth is
bounded by the registry size). -/

/-- The snapshot filter `s is not exclude` of `broadcast` line 14: with
`exclude=None` every socket passes. -/
def notExcluded (exclude : Option Nat) (s : Nat) : Bool :=
  match exclude with
  | none => true
  | some e => s ≠ e

inductive Job where
  /-- Model of `broadcast(text, exclude)` -/
  | bcast (text : PyStr) (exclude : Option Nat)
  /-- the `for s in targets` send loop of `broadcast` with encoded `data` -/
  | bloop (data : PyStr) (targets : List Nat)
  /-- Model of `remove_client(sock)` -/
  | rm (sock : Nat)

def runJob (fails : Nat → Bool) : Nat → Job → Registry → Registry × List Effect
  | 0, _, st => (st, [])
  | f + 1, Job.bcast text exclude, st =>
      runJob fails f
        (Job.bloop (text ++ nl) ((st.map Prod.fst).filter (notExcluded exclude))) st
  | _ + 1, Job.bloop _ [], st => (st, [])
  | f + 1, Job.bloop data (s :: rest), st =>
      if fails s then
        let r1 := runJob fails f (Job.rm s) st
        let r2 := runJob fails f (Job.bloop data rest) r1.1
        (r2.1, r1.2 ++ r2.2)
      else
        let r2 := runJob fails f (Job.bloop data rest) st
        (r2.1, Effect.send s data :: r2.2)
  | f + 1, Job.rm sock, st =>
      let p := dictPop sock st
      match p.1 with
      | none => (p.2, [Effect.close sock])
      | some name =>
          if name = [] then (p.2, [Effect.close sock])
          else
            let r := runJob fails f (Job.bcast (departMsg name) none) p.2
            (r.1, Effect.close sock :: r.2)

/-- Fuel bound amply covering the recursion depth of any cascade starting from
registry `st`. -/
def ampleFuel (st : Registry) : Nat := (st.length + 2) * (st.length + 2)

/-- Model of `broadcast(text, exclude)` of `server.py` lines 11-20. -/
def broadcast (fails : Nat → Bool) (text : PyStr) (exclude : Option Nat)
    (st : Registry) : Registry × List Effect :=
  runJob fails (ampleFuel st) (Job.bcast text exclude) st

/-- Model of `remove_client(sock)` of `server.py` lines 23-32. -/
def removeClient (fails : Nat → Bool) (sock : Nat) (st : Registry) :
    Registry × List Effect :=
  runJob fails (ampleFuel st) (Job.rm sock) st

/-! ### `send_whisper` (`server.py` lines 76-91) -/

/-- A `sendall` wrapped in `try: ... except OSError: pass`. -/
def trySend (fails : Nat → Bool) (s : Nat) (msg : PyStr) : List Effect :=
  if fails s then [] else [Effect.send s msg]

/-- Model of `send_whisper(sender, target_name, content, sender_sock)`.  Returns the
delivered effects and whether an uncaught `OSError` was raised (only the
not-found `sendall` is unprotected). -/
def sendWhisper (fails : Nat → Bool) (sender targetName content : PyStr)
    (senderSock : Nat) (st : Registry) : List Effect × Bool :=
  match findByNickname targetName st with
  | none =>
      if fails senderSock then ([], true)
      else ([Effect.send senderSock (notFoundMsg targetName)], false)
  | some targetSock =>
      (trySend fails targetSock (whisperMsg sender content ++ nl) ++
        trySend fails senderSock (whisperSentMsg targetName content ++ nl), false)

/-! ### `handle_client` (`server.py` lines 35-73)

`firstLine` and the elements of `lines` are the successive results of
`recv_line` (`none` = read failure / EOF).  `registerStep` covers lines 36-48,
`sessionStep` one iteration of the `while True` body (lines 51-71),
`handleClient` the whole function including the `finally: remove_client`. -/

/-- Result of one iteration of the session loop: updated registry, emitted
effects, and whether the loop continues (an uncaught exception or a `break`
both end it). -/
structure StepRes where
  st : Registry
  effs : List Effect
  continues : Bool
deriving Repr, DecidableEq

/-- Result of the registration phase: the accepted nickname (if registration
happened), registry, effects, and whether control proceeds into the loop. -/
structure RegRes where
  nickname : Option PyStr
  st : Registry
  effs : List Effect
  proceed : Bool
deriving Repr, DecidableEq

/-- Lines 36-48: read the nickname line, refuse empty/whitespace-only
nicknames, otherwise register, send the welcome line, and broadcast the join
announcement with `exclude=None`. -/
def registerStep (fails : Nat → Bool) (sock : Nat) (firstLine : Option PyStr)
    (st : Registry) : RegRes :=
  let bad : Bool :=
    match firstLine with
    | none => true
    | some l => pyStrip l = []
  if bad then
    if fails sock then ⟨none, st, [], false⟩
    else ⟨none, st, [Effect.send sock refusalMsg, Effect.close sock], false⟩
  else
    match firstLine with
    | none => ⟨none, st, [], false⟩
    | some l =>
        let nickname := pyStrip l
        let st1 := dictSet sock nickname st
        if fails sock then ⟨some nickname, st1, [], false⟩
        else
          let b := broadcast fails (joinMsg nickname) none st1
          ⟨some nickname, b.1, Effect.send sock welcomeMsg :: b.2, true⟩

/-- One iteration of the `while True` loop, lines 51-71. -/
def sessionStep (fails : Nat → Bool) (sock : Nat) (nickname : PyStr)
    (line : Option PyStr) (st : Registry) : StepRes :=
  match line with
  | none => ⟨st, [], false⟩
  | some l =>
      let text := pyStrip l
      if text = [] then ⟨st, [], true⟩
      else if text = str "/종료" then ⟨st, [], false⟩
      else if pyStartsWith (str "/w ") text then
        match pySplit ' ' 2 text with
        | [_, t, c] =>
            let w := sendWhisper fails nickname t c sock st
            ⟨st, w.1, !w.2⟩
        | _ =>
            -- fewer than three fields (`pySplit ' ' 2` yields at most three)
            if fails sock then ⟨st, [], false⟩
            else ⟨st, [Effect.send sock usageMsg], true⟩
      else
        let b := broadcast fails (chatMsg nickname text) none st
        ⟨b.1, b.2, true⟩

/-- The `while True` loop over the successive `recv_line` results; an
exhausted list behaves like EOF. -/
def sessionLoop (fails : Nat → Bool) (sock : Nat) (nickname : PyStr) :
    List (Option PyStr) → Registry → Registry × List Effect
  | [], st => (st, [])
  | line :: rest, st =>
      let r := sessionStep fails sock nickname line st
      if r.continues then
        let k := sessionLoop fails sock nickname rest r.st
        (k.1, r.effs ++ k.2)
      else (r.st, r.effs)

/-- The whole of `handle_client`, including the `finally: remove_client`. -/
def handleClient (fails : Nat → Bool) (sock : Nat) (firstLine : Option PyStr)
    (lines : List (Option PyStr)) (st : Registry) : Registry × List Effect :=
  let reg := registerStep fails sock firstLine st
  match reg.nickname, reg.proceed with
  | some nick, true =>
      let k := sessionLoop fails sock nick lines reg.st
      let fin := removeClient fails sock k.1
      (fin.1, reg.effs ++ k.2 ++ fin.2)
  | _, _ =>
      let fin := removeClient fails sock reg.st
      (fin.1, reg.effs ++ fin.2)

/-! ### `recv_line` (`server.py` lines 94-110) and the client's decode loop
(`client.py` lines 9-24)

Raw bytes are `Nat`s below 256; the socket is a list of `recv` results:
`none` = `OSError`, `some []` = EOF, `some c` = a delivered chunk. -/

/-- Model of `buf.split(b'\x0a', 1)` when the delimiter occurs: the part before the
first occurrence and the part after it. -/
def splitAtByte (b : Nat) : List Nat → Option (List Nat × List Nat)
  | [] => none
  | x :: xs =>
      if x = b then some ([], xs)
      else
        match splitAtByte b xs with
        | none => none
        | some p => some (x :: p.1, p.2)

/-- Is `b` a UTF-8 continuation byte? -/
def isCont (b : Nat) : Bool := 128 ≤ b && b ≤ 191

/-- U+FFFD, the replacement character. -/
def replChar : Char := Char.ofNat 0xFFFD

/-- Admissible first continuation byte after a three-byte leader. -/
def validC1of3 (b c1 : Nat) : Bool :=
  if b = 224 then 160 ≤ c1 && c1 ≤ 191
  else if b = 237 then 128 ≤ c1 && c1 ≤ 159
  else isCont c1

/-- Admissible first continuation byte after a four-byte leader. -/
def validC1of4 (b c1 : Nat) : Bool :=
  if b = 240 then 144 ≤ c1 && c1 ≤ 191
  else if b = 244 then 128 ≤ c1 && c1 ≤ 143
  else isCont c1

/-- Model of `bytes.decode('utf-8', errors='replace')`, fueled structurally: each step
consumes at least one byte, so `fuel = input length` always suffices.  Each
maximal invalid subpart becomes one U+FFFD; the function is total — it never
raises. -/
def decodeU8RF : Nat → List Nat → PyStr
  | 0, _ => []
  | _ + 1, [] => []
  | f + 1, b :: r =>
      if b < 128 then Char.ofNat b :: decodeU8RF f r
      else if 194 ≤ b && b ≤ 223 then
        match r with
        | [] => [replChar]
        | c1 :: r2 =>
            if isCont c1 then
              Char.ofNat ((b - 192) * 64 + (c1 - 128)) :: decodeU8RF f r2
            else replChar :: decodeU8RF f r
      else if 224 ≤ b && b ≤ 239 then
        match r with
        | [] => [replChar]
        | c1 :: r2 =>
            if validC1of3 b c1 then
              match r2 with
              | [] => [replChar]
              | c2 :: r3 =>
                  if isCont c2 then
                    Char.ofNat ((b - 224) * 4096 + (c1 - 128) * 64 + (c2 - 128)) ::
                      decodeU8RF f r3
                  else replChar :: decodeU8RF f r2
            else replChar :: decodeU8RF f r
      else if 240 ≤ b && b ≤ 244 then
        match r with
        | [] => [replChar]
        | c1 :: r2 =>
            if validC1of4 b c1 then
              match r2 with
              | [] => [replChar]
              | c2 :: r3 =>
                  if isCont c2 then
                    match r3 with
                    | [] => [replChar]
                    | c3 :: r4 =>
                        if isCont c3 then
                          Char.ofNat ((b - 240) * 262144 + (c1 - 128) * 4096 +
                            (c2 - 128) * 64 + (c3 - 128)) :: decodeU8RF f r4
                        else replChar :: decodeU8RF f r3
                  else replChar :: decodeU8RF f r2
            else replChar :: decodeU8RF f r
      else replChar :: decodeU8RF f r

/-- Model of `bytes.decode('utf-8', errors='replace')`. -/
def decodeU8R (bs : List Nat) : PyStr := decodeU8RF bs.length bs

/-- The body of `recv_line` with the loop-local buffer `buf` made explicit;
`recv_line` itself starts from an empty buffer.  Returns the result and the
not-yet-consumed tail of the `recv` stream. -/
def recvLineF : List Nat → List (Option (List Nat)) →
    Option PyStr × List (Option (List Nat))
  | buf, chunks =>
      match splitAtByte 10 buf with
      | some p => (some (decodeU8R p.1), chunks)
      | none =>
          match chunks with
          | [] => (none, [])
          | none :: rest => (none, rest)
          | some c :: rest =>
              if c = [] then (none, rest) else recvLineF (buf ++ c) rest

/-- Model of `recv_line(sock)`: `buf = b''` is local to each call. -/
def recvLine (chunks : List (Option (List Nat))) :
    Option PyStr × List (Option (List Nat)) :=
  recvLineF [] chunks

/-- The inner `while b'\x0a' in buf` of the client's `recv_loop`: print every
complete line (decoded with replacement), keep the remainder buffered.  Fueled
structurally; `buf.length` steps always suffice. -/
def clientDrain : Nat → List Nat → List PyStr × List Nat
  | 0, buf => ([], buf)
  | f + 1, buf =>
      match splitAtByte 10 buf with
      | none => ([], buf)
      | some p =>
          let r := clientDrain f p.2
          (decodeU8R p.1 :: r.1, r.2)

/-- The client's `recv_loop` over a `recv` stream: the lines it prints.
Unlike the server's `recv_line`, the buffer persists across `recv` calls. -/
def clientRecvLoop : List (Option (List Nat)) → List Nat → List PyStr
  | [], _ => []
  | none :: _, _ => []
  | some c :: rest, buf =>
      if c = [] then []
      else
        let d := clientDrain (buf ++ c).length (buf ++ c)
        d.1 ++ clientRecvLoop rest d.2

/-- The no-failure environment: every `sendall` succeeds. -/
def noFail : Nat → Bool := fun _ => false

/-! ## Association-list (dict) lemmas -/

lemma dictPop_fst_eq_dictGet (k : Nat) : ∀ st : Registry, (dictPop k st).1 = dictGet k st := by
  intro st
  induction st with
  | nil => rfl
  | cons hd tl ih =>
      obtain ⟨k', v⟩ := hd
      by_cases h : k' = k <;> simp [dictPop, dictGet, h, ih]

lemma dictPop_of_get_none (k : Nat) : ∀ st : Registry,
    dictGet k st = none → dictPop k st = (none, st) := by
  intro st
  induction st with
  | nil => intro _; rfl
  | cons hd tl ih =>
      obtain ⟨k', v⟩ := hd
      intro h
      by_cases hk : k' = k
      · simp [dictGet, hk] at h
      · simp [dictGet, hk] at h
        simp [dictPop, hk, ih h]

lemma dictPop_snd_length_le (k : Nat) : ∀ st : Registry,
    (dictPop k st).2.length ≤ st.length := by
  intro st
  induction st with
  | nil => simp [dictPop]
  | cons hd tl ih =>
      obtain ⟨k', v⟩ := hd
      by_cases hk : k' = k
      · simp [dictPop, hk]
      · simp [dictPop, hk]
        omega

lemma dictGet_eq_none_of_not_mem (k : Nat) : ∀ st : Registry,
    k ∉ st.map Prod.fst → dictGet k st = none := by
  intro st
  induction st with
  | nil => intro _; rfl
  | cons hd tl ih =>
      obtain ⟨k', v⟩ := hd
      intro h
      simp only [List.map_cons, List.mem_cons] at h
      push_neg at h
      have hk : ¬ k' = k := fun hc => h.1 hc.symm
      simp [dictGet, hk, ih h.2]

lemma mem_keys_of_get_some (k : Nat) (v : PyStr) : ∀ st : Registry,
    dictGet k st = some v → k ∈ st.map Prod.fst := by
  intro st
  induction st with
  | nil => intro h; simp [dictGet] at h
  | cons hd tl ih =>
      obtain ⟨k', v'⟩ := hd
      intro h
      by_cases hk : k' = k
      · simp [hk]
      · simp [dictGet, hk] at h
        simp [ih h]

lemma not_mem_keys_pop_self (k : Nat) : ∀ st : Registry,
    (st.map Prod.fst).Nodup → k ∉ (dictPop k st).2.map Prod.fst := by
  intro st
  induction st with
  | nil => intro _; simp [dictPop]
  | cons hd tl ih =>
      obtain ⟨k', v⟩ := hd
      intro hnd
      simp only [List.map_cons, List.nodup_cons] at hnd
      by_cases hk : k' = k
      · subst hk
        simpa [dictPop] using hnd.1
      · simp only [dictPop, hk, if_false]
        simp only [List.map_cons, List.mem_cons]
        push_neg
        exact ⟨fun hc => hk hc.symm, ih hnd.2⟩

lemma dictGet_pop_self_of_nodup (k : Nat) (st : Registry)
    (hnd : (st.map Prod.fst).Nodup) : dictGet k (dictPop k st).2 = none :=
  dictGet_eq_none_of_not_mem k _ (not_mem_keys_pop_self k st hnd)

lemma mem_keys_dictSet (k : Nat) (v : PyStr) : ∀ st : Registry,
    k ∈ (dictSet k v st).map Prod.fst := by
  intro st
  induction st with
  | nil => simp [dictSet]
  | cons hd tl ih =>
      obtain ⟨k', v'⟩ := hd
      by_cases hk : k' = k <;> simp [dictSet, hk, ih]

/-! ## Fuel arithmetic -/

lemma ampleFuel_ge (st : Registry) : 2 * st.length + 4 ≤ ampleFuel st := by
  unfold ampleFuel
  nlinarith [st.length.zero_le]

/-! ## Characterizations of `runJob` -/

/-- Filtering with the trivial `exclude=None` snapshot filter keeps every
target. -/
lemma filter_notExcluded_none (l : List Nat) : l.filter (notExcluded none) = l := by
  induction l with
  | nil => rfl
  | cons hd tl ih => simp [List.filter, notExcluded, ih]

/-- The send loop when no target fails: one send per snapshot target, registry
untouched. -/
lemma runJob_bloop_nofail (fails : Nat → Bool) (data : PyStr) :
    ∀ (targets : List Nat) (f : Nat) (st : Registry),
      (∀ s ∈ targets, fails s = false) → targets.length ≤ f →
      runJob fails f (Job.bloop data targets) st =
        (st, targets.map fun s => Effect.send s data) := by
  intro targets
  induction targets with
  | nil => intro f st _ _; cases f <;> simp [runJob]
  | cons s rest ih =>
      intro f st hfl hf
      match f with
      | 0 => simp at hf
      | f + 1 =>
          have hs : fails s = false := hfl s (by simp)
          have hrest : ∀ x ∈ rest, fails x = false := fun x hx => hfl x (by simp [hx])
          have hlen : rest.length ≤ f := by simp at hf; omega
          simp [runJob, hs, ih f st hrest hlen]

/-- Model of `broadcast` when no snapshot target fails. -/
lemma runJob_bcast_nofail (fails : Nat → Bool) (text : PyStr) (exclude : Option Nat)
    (st : Registry) (f : Nat)
    (h : ∀ s ∈ st.map Prod.fst, fails s = false)
    (hf : st.length + 1 ≤ f) :
    runJob fails f (Job.bcast text exclude) st =
      (st, ((st.map Prod.fst).filter (notExcluded exclude)).map
        fun s => Effect.send s (text ++ nl)) := by
  match f with
  | 0 => omega
  | f + 1 =>
      have hlen : ((st.map Prod.fst).filter (notExcluded exclude)).length ≤ f := by
        have h1 := List.length_filter_le (notExcluded exclude) (st.map Prod.fst)
        have h2 : (st.map Prod.fst).length = st.length := List.length_map _ _
        omega
      have hmem : ∀ s ∈ (st.map Prod.fst).filter (notExcluded exclude), fails s = false :=
        fun s hs => h s (List.mem_of_mem_filter hs)
      simp [runJob, runJob_bloop_nofail fails (text ++ nl) _ f st hmem hlen]

/-- Model of `remove_client` on a socket absent from the registry: pure no-op plus the
socket close. -/
lemma runJob_rm_absent (fails : Nat → Bool) (sock : Nat) (st : Registry) (f : Nat)
    (h : dictGet sock st = none) (hf : 0 < f) :
    runJob fails f (Job.rm sock) st = (st, [Effect.close sock]) := by
  match f with
  | 0 => omega
  | f + 1 => simp [runJob, dictPop_of_get_none sock st h]

/-- Model of `remove_client` on a registered socket whose departure broadcast hits no
failing socket. -/
lemma runJob_rm_present (fails : Nat → Bool) (sock : Nat) (st : Registry) (f : Nat)
    (name : PyStr)
    (h1 : (dictPop sock st).1 = some name) (hname : name ≠ [])
    (hnf : ∀ s ∈ (dictPop sock st).2.map Prod.fst, fails s = false)
    (hf : (dictPop sock st).2.length + 2 ≤ f) :
    runJob fails f (Job.rm sock) st =
      ((dictPop sock st).2,
        Effect.close sock ::
          ((dictPop sock st).2.map Prod.fst).map
            fun s => Effect.send s (departMsg name ++ nl)) := by
  match f with
  | 0 => omega
  | f + 1 =>
      have hb := runJob_bcast_nofail fails (departMsg name) none (dictPop sock st).2 f
        hnf (by omega)
      rw [filter_notExcluded_none] at hb
      simp [runJob, h1, hname, hb]

/-- Model of `remove_client` on a registered socket whose stored nickname is the empty
string: the `if nickname:` guard suppresses the departure broadcast. -/
lemma runJob_rm_present_empty (fails : Nat → Bool) (sock : Nat) (st : Registry)
    (f : Nat) (h1 : (dictPop sock st).1 = some []) (hf : 0 < f) :
    runJob fails f (Job.rm sock) st = ((dictPop sock st).2, [Effect.close sock]) := by
  match f with
  | 0 => omega
  | f + 1 => simp [runJob, h1]

/-! ## Wrapper-level corollaries -/

lemma broadcast_noFail (text : PyStr) (exclude : Option Nat) (st : Registry) :
    broadcast noFail text exclude st =
      (st, ((st.map Prod.fst).filter (notExcluded exclude)).map
        fun s => Effect.send s (text ++ nl)) := by
  have := ampleFuel_ge st
  exact runJob_bcast_nofail noFail text exclude st (ampleFuel st)
    (by intro s _; rfl) (by omega)

lemma removeClient_absent (fails : Nat → Bool) (sock : Nat) (st : Registry)
    (h : dictGet sock st = none) :
    removeClient fails sock st = (st, [Effect.close sock]) := by
  have := ampleFuel_ge st
  exact runJob_rm_absent fails sock st _ h (by omega)

lemma removeClient_noFail_present (sock : Nat) (st : Registry) (name : PyStr)
    (h1 : dictGet sock st = some name) (hname : name ≠ []) :
    removeClient noFail sock st =
      ((dictPop sock st).2,
        Effect.close sock ::
          ((dictPop sock st).2.map Prod.fst).map
            fun s => Effect.send s (departMsg name ++ nl)) := by
  have h2 := ampleFuel_ge st
  have h3 := dictPop_snd_length_le sock st
  exact runJob_rm_present noFail sock st _ name
    (by rw [dictPop_fst_eq_dictGet]; exact h1) hname (by intro s _; rfl) (by omega)

/-- Whatever the stored nickname, `remove_client` leaves exactly the registry
without the popped entry (in the no-failure environment). -/
lemma removeClient_noFail_fst (sock : Nat) (st : Registry) :
    (removeClient noFail sock st).1 = (dictPop sock st).2 := by
  cases h : dictGet sock st with
  | none =>
      rw [removeClient_absent noFail sock st h, dictPop_of_get_none sock st h]
  | some name =>
      by_cases he : name = []
      · subst he
        have := ampleFuel_ge st
        unfold removeClient
        rw [runJob_rm_present_empty noFail sock st (ampleFuel st)
          (by rw [dictPop_fst_eq_dictGet]; exact h) (by omega)]
      · rw [removeClient_noFail_present sock st name h he]

/-! ## String-literal normal forms -/

lemma str_w_space : str "/w " = '/' :: 'w' :: ' ' :: [] := rfl

lemma str_w : str "/w" = '/' :: 'w' :: [] := rfl

lemma str_quit : str "/종료" = '/' :: '종' :: '료' :: [] := rfl

/-! ## Command-parsing lemmas -/

lemma pyStartsWith_append (p r : PyStr) : pyStartsWith p (p ++ r) = true := by
  induction p with
  | nil => rfl
  | cons c cs ih => simp [pyStartsWith, ih]

lemma splitFirstChar_eq_none (sep : Char) : ∀ x : PyStr,
    ¬ sep ∈ x → splitFirstChar sep x = none := by
  intro x
  induction x with
  | nil => intro _; rfl
  | cons c cs ih =>
      intro h
      simp only [List.mem_cons] at h
      push_neg at h
      have hc : ¬ c = sep := fun hc => h.1 hc.symm
      simp [splitFirstChar, hc, ih h.2]

lemma splitFirstChar_append (sep : Char) : ∀ x y : PyStr,
    ¬ sep ∈ x → splitFirstChar sep (x ++ sep :: y) = some (x, y) := by
  intro x
  induction x with
  | nil => intro y _; simp [splitFirstChar]
  | cons c cs ih =>
      intro y h
      simp only [List.mem_cons] at h
      push_neg at h
      have hc : ¬ c = sep := fun hc => h.1 hc.symm
      simp [splitFirstChar, hc, ih y h.2]

/-- Model of `text.split(' ', 2)` on a whisper line whose remainder has no further
space: only two fields result. -/
lemma pySplit_w_usage (rest : PyStr) (h : ¬ ' ' ∈ rest) :
    pySplit ' ' 2 (str "/w " ++ rest) = [str "/w", rest] := by
  have h1 : str "/w " ++ rest = str "/w" ++ ' ' :: rest := rfl
  rw [h1, show (2 : Nat) = 1 + 1 from rfl]
  simp [pySplit, splitFirstChar_append ' ' (str "/w") rest (by decide),
    splitFirstChar_eq_none ' ' rest h]

/-- Model of `text.split(' ', 2)` on a full whisper line: command token, target
(no spaces), and the whole remaining content as one field. -/
lemma pySplit_w_parts (t c : PyStr) (ht : ¬ ' ' ∈ t) :
    pySplit ' ' 2 (str "/w " ++ t ++ ' ' :: c) = [str "/w", t, c] := by
  have h1 : str "/w " ++ t ++ ' ' :: c = str "/w" ++ ' ' :: (t ++ ' ' :: c) := by
    rw [str_w_space, str_w]
    simp
  rw [h1, show (2 : Nat) = 1 + 1 from rfl]
  simp [pySplit, splitFirstChar_append ' ' (str "/w") _ (by decide),
    splitFirstChar_append ' ' t c ht]

/-! ## `send_whisper` and session-step lemmas -/

lemma sendWhisper_noFail_snd (sender target content : PyStr) (sock : Nat)
    (st : Registry) :
    (sendWhisper noFail sender target content sock st).2 = false := by
  cases h : findByNickname target st <;> simp [sendWhisper, h, noFail, trySend]

/-- A stripped line of the form `/w <t> <c>` with a space-free `t` reaches
`send_whisper` with exactly `t` and `c` as arguments and keeps the session
alive. -/
lemma sessionStep_whisper (st : Registry) (sock : Nat) (nick t c l : PyStr)
    (hl : pyStrip l = str "/w " ++ t ++ ' ' :: c) (ht : ¬ ' ' ∈ t) :
    sessionStep noFail sock nick (some l) st =
      ⟨st, (sendWhisper noFail nick t c sock st).1, true⟩ := by
  have hne : pyStrip l ≠ [] := by
    rw [hl, str_w_space]
    simp
  have hq : pyStrip l ≠ str "/종료" := by
    rw [hl, str_w_space, str_quit]
    intro hcontra
    rw [List.cons_append, List.cons_append] at hcontra
    injection hcontra with e1 rest1
    injection rest1 with e2 _
    exact absurd e2 (by decide)
  have hw : pyStartsWith (str "/w ") (pyStrip l) = true := by
    rw [hl, List.append_assoc]
    exact pyStartsWith_append _ _
  simp only [sessionStep, hl] at *
  rw [if_neg hne, if_neg hq, if_pos hw, pySplit_w_parts t c ht]
  simp [sendWhisper_noFail_snd]

/-- A stripped line of the form `/w <rest>` with no further space yields the
usage error to the sender only, and the loop continues. -/
lemma sessionStep_usage (st : Registry) (sock : Nat) (nick rest l : PyStr)
    (hl : pyStrip l = str "/w " ++ rest) (hr : ¬ ' ' ∈ rest) :
    sessionStep noFail sock nick (some l) st =
      ⟨st, [Effect.send sock usageMsg], true⟩ := by
  have hne : pyStrip l ≠ [] := by
    rw [hl, str_w_space]
    simp
  have hq : pyStrip l ≠ str "/종료" := by
    rw [hl, str_w_space, str_quit]
    intro hcontra
    rw [List.cons_append] at hcontra
    injection hcontra with e1 rest1
    injection rest1 with e2 _
    exact absurd e2 (by decide)
  have hw : pyStartsWith (str "/w ") (pyStrip l) = true := by
    rw [hl]
    exact pyStartsWith_append _ _
  simp only [sessionStep, hl] at *
  rw [if_neg hne, if_neg hq, if_pos hw, pySplit_w_usage rest hr]
  simp [noFail]

/-- Any other stripped non-empty, non-quit, non-whisper line is broadcast with
`exclude=None`: every registered connection receives it. -/
lemma sessionStep_chat (st : Registry) (sock : Nat) (nick l : PyStr)
    (hne : pyStrip l ≠ []) (hq : pyStrip l ≠ str "/종료")
    (hw : pyStartsWith (str "/w ") (pyStrip l) = false) :
    sessionStep noFail sock nick (some l) st =
      ⟨st, (st.map Prod.fst).map
        (fun s => Effect.send s (chatMsg nick (pyStrip l) ++ nl)), true⟩ := by
  simp only [sessionStep]
  rw [if_neg hne, if_neg hq, if_neg (by rw [hw]; exact Bool.false_ne_true),
    broadcast_noFail, filter_notExcluded_none]

/-! ## Receive-path lemmas -/

lemma splitAtByte_eq_none (b : Nat) : ∀ x : List Nat,
    ¬ b ∈ x → splitAtByte b x = none := by
  intro x
  induction x with
  | nil => intro _; rfl
  | cons c cs ih =>
      intro h
      simp only [List.mem_cons] at h
      push_neg at h
      have hc : ¬ c = b := fun hc => h.1 hc.symm
      simp [splitAtByte, hc, ih h.2]

lemma splitAtByte_of_append (b : Nat) : ∀ x y : List Nat,
    ¬ b ∈ x → splitAtByte b (x ++ b :: y) = some (x, y) := by
  intro x
  induction x with
  | nil => intro y _; simp [splitAtByte]
  | cons c cs ih =>
      intro y h
      simp only [List.mem_cons] at h
      push_neg at h
      have hc : ¬ c = b := fun hc => h.1 hc.symm
      simp [splitAtByte, hc, ih y h.2]

/-- Whenever the buffer contains a delimiter, `recv_line` succeeds with the
replacement-decoded prefix and the chunk stream is left where it is. -/
lemma recvLineF_found (buf : List Nat) (chunks : List (Option (List Nat)))
    (line tail : List Nat) (h : splitAtByte 10 buf = some (line, tail)) :
    recvLineF buf chunks = (some (decodeU8R line), chunks) := by
  cases chunks with
  | nil => rw [recvLineF.eq_1, h]
  | cons o rest =>
      cases o with
      | none => rw [recvLineF.eq_2, h]
      | some c => rw [recvLineF.eq_3, h]

lemma recvLineF_step (buf c : List Nat) (rest : List (Option (List Nat)))
    (hsplit : splitAtByte 10 buf = none) (hc : c ≠ []) :
    recvLineF buf (some c :: rest) = recvLineF (buf ++ c) rest := by
  rw [recvLineF.eq_3, hsplit]
  simp [hc]

/-- Model of `recv_line` on a stream whose first chunk contains a newline: the text
before the newline is returned decoded, the in-chunk bytes after it vanish,
and the stream resumes after the whole chunk. -/
lemma recvLine_first (a b : List Nat) (chunks : List (Option (List Nat)))
    (ha : ¬ 10 ∈ a) :
    recvLine (some (a ++ 10 :: b) :: chunks) = (some (decodeU8R a), chunks) := by
  unfold recvLine
  rw [recvLineF_step [] (a ++ 10 :: b) chunks rfl (by simp), List.nil_append]
  exact recvLineF_found _ chunks a b (splitAtByte_of_append 10 a b ha)

lemma clientDrain_nil (f : Nat) : clientDrain f [] = ([], []) := by
  cases f <;> rfl

/-! ## Claim theorems -/

/-- C1, claim as stated is false: a registered connection that sends a normal
chat line receives its own broadcast back (`broadcast` is called without
`exclude`, so the snapshot includes the sender).  Connection 0 ("alice") gets
`alice> hi` echoed to itself. -/
theorem C1_counterexample :
    Effect.send 0 (chatMsg (str "alice") (str "hi") ++ nl) ∈
      (sessionStep noFail 0 (str "alice") (some (str "hi"))
        [(0, str "alice"), (1, str "bob")]).effs := by decide

/-- C1 (amended): a non-empty, non-command line from a registered connection is
broadcast as `<nickname>> <text>` to ALL registered connections — the sender
included, so the message IS echoed back to the sender. -/
theorem C1_broadcast_includes_sender (st : Registry) (sock : Nat) (nick l : PyStr)
    (hne : pyStrip l ≠ []) (hq : pyStrip l ≠ str "/종료")
    (hw : pyStartsWith (str "/w ") (pyStrip l) = false) :
    sessionStep noFail sock nick (some l) st =
      ⟨st, (st.map Prod.fst).map
        (fun s => Effect.send s (chatMsg nick (pyStrip l) ++ nl)), true⟩ ∧
    (dictGet sock st = some nick →
      Effect.send sock (chatMsg nick (pyStrip l) ++ nl) ∈
        (sessionStep noFail sock nick (some l) st).effs) := by
  refine ⟨sessionStep_chat st sock nick l hne hq hw, fun hget => ?_⟩
  rw [sessionStep_chat st sock nick l hne hq hw]
  exact List.mem_map_of_mem _ (mem_keys_of_get_some sock nick st hget)

/-- Witness for C1 at a concrete two-client registry. -/
theorem C1_witness :
    sessionStep noFail 0 (str "alice") (some (str "hi"))
        [(0, str "alice"), (1, str "bob")] =
      ⟨[(0, str "alice"), (1, str "bob")],
        (([(0, str "alice"), (1, str "bob")] : Registry).map Prod.fst).map
          (fun s => Effect.send s (chatMsg (str "alice") (pyStrip (str "hi")) ++ nl)),
        true⟩ ∧
    (dictGet 0 [(0, str "alice"), (1, str "bob")] = some (str "alice") →
      Effect.send 0 (chatMsg (str "alice") (pyStrip (str "hi")) ++ nl) ∈
        (sessionStep noFail 0 (str "alice") (some (str "hi"))
          [(0, str "alice"), (1, str "bob")]).effs) :=
  C1_broadcast_includes_sender [(0, str "alice"), (1, str "bob")] 0 (str "alice")
    (str "hi") (by decide) (by decide) (by decide)

/-- C2, claim as stated is false: the join announcement is broadcast with
`exclude=None` after the joiner is registered, so the joining connection (0)
receives its own join announcement. -/
theorem C2_counterexample :
    Effect.send 0 (joinMsg (str "alice") ++ nl) ∈
      (registerStep noFail 0 (some (str "alice")) [(1, str "bob")]).effs := by decide

/-- C2 (amended): a successful registration stores the stripped nickname, sends
the welcome line to the new connection, and broadcasts the join announcement
to ALL currently registered connections — the joining connection included. -/
theorem C2_join_to_all (st : Registry) (sock : Nat) (l : PyStr)
    (h : pyStrip l ≠ []) :
    registerStep noFail sock (some l) st =
      ⟨some (pyStrip l), dictSet sock (pyStrip l) st,
        Effect.send sock welcomeMsg ::
          ((dictSet sock (pyStrip l) st).map Prod.fst).map
            (fun s => Effect.send s (joinMsg (pyStrip l) ++ nl)), true⟩ ∧
    Effect.send sock (joinMsg (pyStrip l) ++ nl) ∈
      (registerStep noFail sock (some l) st).effs := by
  have h1 : registerStep noFail sock (some l) st =
      ⟨some (pyStrip l), dictSet sock (pyStrip l) st,
        Effect.send sock welcomeMsg ::
          ((dictSet sock (pyStrip l) st).map Prod.fst).map
            (fun s => Effect.send s (joinMsg (pyStrip l) ++ nl)), true⟩ := by
    simp only [registerStep]
    rw [if_neg (by simp [h]), if_neg (by simp [noFail]),
      broadcast_noFail, filter_notExcluded_none]
  refine ⟨h1, ?_⟩
  rw [h1]
  exact List.mem_cons_of_mem _
    (List.mem_map_of_mem _ (mem_keys_dictSet sock (pyStrip l) st))

/-- Witness for C2: "alice" joins a registry holding "bob". -/
theorem C2_witness :
    registerStep noFail 0 (some (str " alice ")) [(1, str "bob")] =
      ⟨some (pyStrip (str " alice ")),
        dictSet 0 (pyStrip (str " alice ")) [(1, str "bob")],
        Effect.send 0 welcomeMsg ::
          ((dictSet 0 (pyStrip (str " alice ")) [(1, str "bob")]).map Prod.fst).map
            (fun s => Effect.send s (joinMsg (pyStrip (str " alice ")) ++ nl)), true⟩ ∧
    Effect.send 0 (joinMsg (pyStrip (str " alice ")) ++ nl) ∈
      (registerStep noFail 0 (some (str " alice ")) [(1, str "bob")]).effs :=
  C2_join_to_all [(1, str "bob")] 0 (str " alice ") (by decide)

/-- C3: a first line that strips to empty yields exactly one refusal message to
the new connection, its socket is closed (twice: once inline, once in the
`finally` teardown), no registry entry is ever created, and no join or leave
announcement is broadcast. -/
theorem C3_empty_nickname (st : Registry) (sock : Nat) (lines : List (Option PyStr))
    (w : PyStr) (hfresh : dictGet sock st = none) (hw : pyStrip w = []) :
    handleClient noFail sock (some w) lines st =
      (st, [Effect.send sock refusalMsg, Effect.close sock, Effect.close sock]) := by
  simp only [handleClient, registerStep]
  rw [if_pos (by simp [hw]), if_neg (by simp [noFail])]
  simp [removeClient_absent noFail sock st hfresh]

/-- Witness for C3: a whitespace-only nickname on an empty registry. -/
theorem C3_witness :
    handleClient noFail 0 (some (str " ")) [] [] =
      ([], [Effect.send 0 refusalMsg, Effect.close 0, Effect.close 0]) :=
  C3_empty_nickname [] 0 [] (str " ") (by decide) (by decide)

/-- C6: a whisper line is split on the first two spaces only — command token,
target, and one content field keeping all further spaces; with fewer than
three fields the sender gets exactly the usage error and the loop continues. -/
theorem C6_whisper_parse (st : Registry) (sock : Nat) (nick : PyStr) :
    (∀ l rest, pyStrip l = str "/w " ++ rest → ¬ ' ' ∈ rest →
      sessionStep noFail sock nick (some l) st =
        ⟨st, [Effect.send sock usageMsg], true⟩) ∧
    (∀ l t c, pyStrip l = str "/w " ++ t ++ ' ' :: c → ¬ ' ' ∈ t →
      sessionStep noFail sock nick (some l) st =
        ⟨st, (sendWhisper noFail nick t c sock st).1, true⟩) :=
  ⟨fun l rest hl hr => sessionStep_usage st sock nick rest l hl hr,
   fun l t c hl ht => sessionStep_whisper st sock nick t c l hl ht⟩

/-- Witness for C6: `/w bob` gives the usage error; `/w bob hi there` reaches
`send_whisper` with target `bob` and content `hi there` (space preserved). -/
theorem C6_witness :
    sessionStep noFail 0 (str "alice") (some (str "/w bob")) [] =
      ⟨[], [Effect.send 0 usageMsg], true⟩ ∧
    sessionStep noFail 0 (str "alice") (some (str "/w bob hi there")) [] =
      ⟨[], (sendWhisper noFail (str "alice") (str "bob") (str "hi there") 0 []).1,
        true⟩ :=
  ⟨(C6_whisper_parse [] 0 (str "alice")).1 (str "/w bob") (str "bob")
      (by decide) (by decide),
   (C6_whisper_parse [] 0 (str "alice")).2 (str "/w bob hi there") (str "bob")
      (str "hi there") (by decide) (by decide)⟩

/-- C7: a whisper whose target nickname matches no registered connection sends
exactly one not-found message to the requester, delivers nothing anywhere
else, broadcasts nothing, leaves the registry unchanged, and the session
continues. -/
theorem C7_whisper_not_found (st : Registry) (sock : Nat) (nick t c l : PyStr)
    (hl : pyStrip l = str "/w " ++ t ++ ' ' :: c) (ht : ¬ ' ' ∈ t)
    (hfind : findByNickname t st = none) :
    sessionStep noFail sock nick (some l) st =
      ⟨st, [Effect.send sock (notFoundMsg t)], true⟩ := by
  rw [sessionStep_whisper st sock nick t c l hl ht]
  simp [sendWhisper, hfind, noFail]

/-- Witness for C7: whispering to the unregistered "carol". -/
theorem C7_witness :
    sessionStep noFail 0 (str "alice") (some (str "/w carol hi"))
        [(0, str "alice"), (1, str "bob")] =
      ⟨[(0, str "alice"), (1, str "bob")],
        [Effect.send 0 (notFoundMsg (str "carol"))], true⟩ :=
  C7_whisper_not_found [(0, str "alice"), (1, str "bob")] 0 (str "alice")
    (str "carol") (str "hi") (str "/w carol hi") (by decide) (by decide) (by decide)

/-- C8: teardown is idempotent — unregistering an absent connection is a no-op
returning only the close, and running the whole teardown a second time leaves
the registry unchanged and broadcasts no second departure. -/
theorem C8_teardown_idempotent (st : Registry) (sock : Nat)
    (hnd : (st.map Prod.fst).Nodup) :
    (dictGet sock st = none →
      removeClient noFail sock st = (st, [Effect.close sock])) ∧
    removeClient noFail sock (removeClient noFail sock st).1 =
      ((removeClient noFail sock st).1, [Effect.close sock]) := by
  refine ⟨fun h => removeClient_absent noFail sock st h, ?_⟩
  have h1 : (removeClient noFail sock st).1 = (dictPop sock st).2 :=
    removeClient_noFail_fst sock st
  have h2 : dictGet sock (dictPop sock st).2 = none :=
    dictGet_pop_self_of_nodup sock st hnd
  rw [h1]
  exact removeClient_absent noFail sock _ h2

/-- Witness for C8 on a one-entry registry. -/
theorem C8_witness :
    (dictGet 0 [(0, str "alice")] = none →
      removeClient noFail 0 [(0, str "alice")] =
        ([(0, str "alice")], [Effect.close 0])) ∧
    removeClient noFail 0 (removeClient noFail 0 [(0, str "alice")]).1 =
      ((removeClient noFail 0 [(0, str "alice")]).1, [Effect.close 0]) :=
  C8_teardown_idempotent [(0, str "alice")] 0 (by decide)

/-- C10: the whisper lookup never excludes the requester, so a client
whispering its own nickname (being the first match) receives both the whisper
line and the confirmation on its own connection. -/
theorem C10_self_whisper (st : Registry) (sock : Nat) (nick c l : PyStr)
    (hl : pyStrip l = str "/w " ++ nick ++ ' ' :: c) (hn : ¬ ' ' ∈ nick)
    (hfind : findByNickname nick st = some sock) :
    sessionStep noFail sock nick (some l) st =
      ⟨st, [Effect.send sock (whisperMsg nick c ++ nl),
            Effect.send sock (whisperSentMsg nick c ++ nl)], true⟩ := by
  rw [sessionStep_whisper st sock nick nick c l hl hn]
  simp [sendWhisper, hfind, noFail, trySend]

/-- Witness for C10: "alice" whispers to "alice". -/
theorem C10_witness :
    sessionStep noFail 0 (str "alice") (some (str "/w alice hi"))
        [(0, str "alice"), (1, str "bob")] =
      ⟨[(0, str "alice"), (1, str "bob")],
        [Effect.send 0 (whisperMsg (str "alice") (str "hi") ++ nl),
         Effect.send 0 (whisperSentMsg (str "alice") (str "hi") ++ nl)], true⟩ :=
  C10_self_whisper [(0, str "alice"), (1, str "bob")] 0 (str "alice") (str "hi")
    (str "/w alice hi") (by decide) (by decide) (by decide)

/-- C4, claim as stated is false: after `recv_line` returns the line `a`, the
bytes `b\x0a` that followed the delimiter in the same chunk are NOT returned
by the next call — the next call reports EOF instead of the line `b`. -/
theorem C4_counterexample :
    recvLine [some [97, 10, 98, 10]] = (some [Char.ofNat 97], []) ∧
    recvLine (recvLine [some [97, 10, 98, 10]]).2 = (none, []) := by decide

/-- C4 (amended): `recv_line` returns the text before the first newline with
the delimiter stripped, but its buffer is call-local: received bytes after
that delimiter are discarded, so a subsequent call sees only later chunks
(here: nothing, i.e. EOF). -/
theorem C4_post_delimiter_bytes_dropped (a b : List Nat) (ha : ¬ 10 ∈ a) :
    recvLine [some (a ++ 10 :: b)] = (some (decodeU8R a), []) ∧
    recvLine (recvLine [some (a ++ 10 :: b)]).2 = (none, []) := by
  have h := recvLine_first a b [] ha
  exact ⟨h, by rw [h]; rfl⟩

/-- Witness for C4: chunk `a\x0a b\x0a` (bytes 97 10 98 10). -/
theorem C4_witness :
    recvLine [some ([97] ++ 10 :: [98, 10])] = (some (decodeU8R [97]), []) ∧
    recvLine (recvLine [some ([97] ++ 10 :: [98, 10])]).2 = (none, []) :=
  C4_post_delimiter_bytes_dropped [97] [98, 10] (by decide)

/-- C5, claim as stated is false: an undecodable line (lone byte 0xFF) is NOT
treated as a read failure — `recv_line` returns the line decoded with a
replacement character, not the EOF/failure result. -/
theorem C5_counterexample :
    (recvLine [some [255, 10]]).1 = some [replChar] ∧
    (recvLine [some [255, 10]]).1 ≠ none := by decide

/-- C5 (amended): both peers apply the same best-effort lossy decoding.  Any
line, decodable or not, is returned by the server's `recv_line` decoded with
U+FFFD replacement (the `UnicodeDecodeError` branch is unreachable), and the
client's `recv_loop` prints exactly the same replacement-decoded text. -/
theorem C5_lossy_decode_both_peers (bs : List Nat)
    (chunks : List (Option (List Nat))) (h : ¬ 10 ∈ bs) :
    recvLine (some (bs ++ [10]) :: chunks) = (some (decodeU8R bs), chunks) ∧
    clientRecvLoop [some (bs ++ [10])] [] = [decodeU8R bs] := by
  constructor
  · exact recvLine_first bs [] chunks h
  · simp only [clientRecvLoop]
    rw [if_neg (by simp), List.nil_append]
    have hlen : (bs ++ [10]).length = bs.length + 1 := by simp
    rw [hlen]
    have hsplit : splitAtByte 10 (bs ++ [10]) = some (bs, []) :=
      splitAtByte_of_append 10 bs [] h
    simp [clientDrain, hsplit, clientDrain_nil]

/-- Witness for C5: the undecodable byte 0xFF, server and client side. -/
theorem C5_witness :
    recvLine (some ([255] ++ [10]) :: []) = (some (decodeU8R [255]), []) ∧
    clientRecvLoop [some ([255] ++ [10])] [] = [decodeU8R [255]] :=
  C5_lossy_decode_both_peers [255] [] (by decide)

/-! ## Single-failure cascade (C9) -/

/-- Peeling a failure-free prefix off the send loop: each prefix target gets
its send, one fuel unit per step. -/
lemma runJob_bloop_peel (fails : Nat → Bool) (data : PyStr) :
    ∀ (pre rest : List Nat) (f : Nat) (st : Registry),
      (∀ s ∈ pre, fails s = false) → pre.length ≤ f →
      runJob fails f (Job.bloop data (pre ++ rest)) st =
        ((runJob fails (f - pre.length) (Job.bloop data rest) st).1,
          pre.map (fun s => Effect.send s data) ++
            (runJob fails (f - pre.length) (Job.bloop data rest) st).2) := by
  intro pre
  induction pre with
  | nil => intro rest f st _ _; simp
  | cons s pre' ih =>
      intro rest f st hfl hf
      match f with
      | 0 => simp at hf
      | f + 1 =>
          have hs : fails s = false := hfl s (by simp)
          have hpre' : ∀ x ∈ pre', fails x = false := fun x hx => hfl x (by simp [hx])
          have hlen : pre'.length ≤ f := by simp at hf; omega
          have harith : f + 1 - (pre'.length + 1) = f - pre'.length := by omega
          simp only [List.cons_append, runJob, hs, Bool.false_eq_true, if_false,
            List.map_cons, List.length_cons, harith, List.append_eq]
          rw [ih rest f st hpre' hlen]

/-- The full single-failure broadcast: with exactly the snapshot target `t`
failing, the prefix is served, `t` is removed and closed, its departure is
announced to every remaining registered connection, and the suffix of the
snapshot still receives the original message. -/
lemma runJob_bcast_single (st : Registry) (text : PyStr) (exclude : Option Nat)
    (t : Nat) (name : PyStr) (pre post : List Nat) (f : Nat)
    (hnd : (st.map Prod.fst).Nodup)
    (hget : dictGet t st = some name) (hname : name ≠ [])
    (hsplit : (st.map Prod.fst).filter (notExcluded exclude) = pre ++ t :: post)
    (hf : 2 * st.length + 4 ≤ f) :
    runJob (fun s => s == t) f (Job.bcast text exclude) st =
      ((dictPop t st).2,
        pre.map (fun s => Effect.send s (text ++ nl)) ++
          Effect.close t ::
            (((dictPop t st).2.map Prod.fst).map
              (fun s => Effect.send s (departMsg name ++ nl)) ++
             post.map (fun s => Effect.send s (text ++ nl)))) := by
  have hndt : (pre ++ t :: post).Nodup := by
    rw [← hsplit]
    exact hnd.filter _
  have hdisj := (List.nodup_append.mp hndt).2.2
  have htpre : t ∉ pre := fun hmem => hdisj hmem (by simp)
  have htpost : t ∉ post :=
    (List.nodup_cons.mp (List.nodup_append.mp hndt).2.1).1
  have hfilter_le : (pre ++ t :: post).length ≤ st.length := by
    rw [← hsplit]
    have h1 := List.length_filter_le (notExcluded exclude) (st.map Prod.fst)
    have h2 : (st.map Prod.fst).length = st.length := List.length_map _ _
    omega
  have hlens : pre.length + post.length + 1 ≤ st.length := by
    simp only [List.length_append, List.length_cons] at hfilter_le
    omega
  have hpoplen := dictPop_snd_length_le t st
  have hpre_ok : ∀ s ∈ pre, (fun s => s == t) s = false := by
    intro s hs
    have hne : s ≠ t := fun he => htpre (he ▸ hs)
    simpa using hne
  have hpost_ok : ∀ s ∈ post, (fun s => s == t) s = false := by
    intro s hs
    have hne : s ≠ t := fun he => htpost (he ▸ hs)
    simpa using hne
  have hpop_ok : ∀ s ∈ (dictPop t st).2.map Prod.fst, (fun s => s == t) s = false := by
    intro s hs
    have hnt := not_mem_keys_pop_self t st hnd
    have hne : s ≠ t := fun he => hnt (he ▸ hs)
    simpa using hne
  obtain ⟨f1, rfl⟩ : ∃ f1, f = f1 + 1 := ⟨f - 1, by omega⟩
  simp only [runJob]
  rw [hsplit,
    runJob_bloop_peel (fun s => s == t) (text ++ nl) pre (t :: post) f1 st
      hpre_ok (by omega)]
  obtain ⟨f2, hf2⟩ : ∃ f2, f1 - pre.length = f2 + 1 :=
    ⟨f1 - pre.length - 1, by omega⟩
  rw [hf2]
  have hr1 : runJob (fun s => s == t) f2 (Job.rm t) st =
      ((dictPop t st).2,
        Effect.close t ::
          ((dictPop t st).2.map Prod.fst).map
            fun s => Effect.send s (departMsg name ++ nl)) :=
    runJob_rm_present (fun s => s == t) t st f2 name
      (by rw [dictPop_fst_eq_dictGet]; exact hget) hname hpop_ok (by omega)
  have hr2 : runJob (fun s => s == t) f2 (Job.bloop (text ++ nl) post)
      (dictPop t st).2 =
      ((dictPop t st).2, post.map fun s => Effect.send s (text ++ nl)) :=
    runJob_bloop_nofail (fun s => s == t) (text ++ nl) post f2 (dictPop t st).2
      hpost_ok (by omega)
  simp only [runJob, beq_self_eq_true, if_true, hr1, hr2, List.cons_append]

/-- C9: when the send to snapshot target `t` fails during a broadcast, `t` is
removed from the registry and closed, a departure announcement for its
nickname is broadcast to every remaining registered connection, and the
original broadcast still reaches the rest of its snapshot. -/
theorem C9_cascading_cleanup (st : Registry) (text : PyStr) (exclude : Option Nat)
    (t : Nat) (name : PyStr) (pre post : List Nat)
    (hnd : (st.map Prod.fst).Nodup)
    (hget : dictGet t st = some name) (hname : name ≠ [])
    (hsplit : (st.map Prod.fst).filter (notExcluded exclude) = pre ++ t :: post) :
    broadcast (fun s => s == t) text exclude st =
      ((dictPop t st).2,
        pre.map (fun s => Effect.send s (text ++ nl)) ++
          Effect.close t ::
            (((dictPop t st).2.map Prod.fst).map
              (fun s => Effect.send s (departMsg name ++ nl)) ++
             post.map (fun s => Effect.send s (text ++ nl)))) := by
  unfold broadcast
  exact runJob_bcast_single st text exclude t name pre post (ampleFuel st)
    hnd hget hname hsplit (ampleFuel_ge st)

/-- Witness for C9: broadcasting "m" to a three-client registry where sending
to client 1 ("b") fails. -/
theorem C9_witness :
    broadcast (fun s => s == 1) (str "m") none
        [(0, str "a"), (1, str "b"), (2, str "c")] =
      ((dictPop 1 [(0, str "a"), (1, str "b"), (2, str "c")]).2,
        [0].map (fun s => Effect.send s (str "m" ++ nl)) ++
          Effect.close 1 ::
            (((dictPop 1 [(0, str "a"), (1, str "b"), (2, str "c")]).2.map
                Prod.fst).map
              (fun s => Effect.send s (departMsg (str "b") ++ nl)) ++
             [2].map (fun s => Effect.send s (str "m" ++ nl)))) :=
  C9_cascading_cleanup [(0, str "a"), (1, str "b"), (2, str "c")] (str "m") none
    1 (str "b") [0] [2] (by decide) (by decide) (by decide) (by decide)

end Chat
